import Mathlib

/-!
# Verification of the Linux Shortcut Creator (`shortcut_creator.py`)

Shallow embedding of the pure core of `shortcut_creator.py`:
the desktop-entry parser / Exec resolver (`parse_desktop_file`,
`find_executable_path`), the catalog loader (`load_applications`),
the shortcut writer (`create_shortcut`), and the scan-directory
computation.  Filesystem and subprocess effects are modelled by an
explicit oracle structure (`Env`, `GuiEnv`); Python strings are
modelled as Lean `String`s, restricting `str.isalnum` / `str.lower` /
whitespace classes to their ASCII behaviour (every concrete input in
this development is ASCII, where the two coincide).
-/

namespace SC

/-! ## Python string primitives (ASCII model) -/

/-- The whitespace characters stripped by Python `str.strip()` and split
on by `str.split()` with no argument (ASCII part). -/
def pyWs : List Char := [' ', '\t', '\n', '\r', '\x0b', '\x0c']

def isPyWs (c : Char) : Bool := pyWs.contains c

/-- `str.strip()` on a character list. -/
def pyStripL (l : List Char) : List Char :=
  ((l.dropWhile isPyWs).reverse.dropWhile isPyWs).reverse

/-- Python `s.strip()` (default whitespace). -/
def pyStrip (s : String) : String := ⟨pyStripL s.data⟩

/-- Python `s.split(sep)` for a single-character separator, on lists:
keeps empty parts, `[] ↦ [[]]`. -/
def pySplitCharL (sep : Char) : List Char → List (List Char)
  | [] => [[]]
  | c :: rest =>
    if c = sep then [] :: pySplitCharL sep rest
    else
      match pySplitCharL sep rest with
      | [] => [[c]]
      | t :: ts => (c :: t) :: ts

/-- Python `s.split(sep)` for a single-character separator. -/
def pySplitChar (sep : Char) (s : String) : List String :=
  (pySplitCharL sep s.data).map (fun l => ⟨l⟩)

/-- Helper for `pySplitWsL`: accumulates the current word (reversed). -/
def pySplitWsGo : List Char → List Char → List (List Char)
  | [], cur => if cur.isEmpty then [] else [cur.reverse]
  | c :: rest, cur =>
    if isPyWs c then
      if cur.isEmpty then pySplitWsGo rest []
      else cur.reverse :: pySplitWsGo rest []
    else pySplitWsGo rest (c :: cur)

/-- Python `s.split()` (no separator: runs of whitespace, no empty parts). -/
def pySplitWsL (l : List Char) : List (List Char) := pySplitWsGo l []

/-- Does `pat` occur as a contiguous run at the start of `l`? -/
def listStartsWith : List Char → List Char → Bool
  | [], _ => true
  | _ :: _, [] => false
  | p :: ps, c :: cs => p = c && listStartsWith ps cs

/-- Python `pat in s` (substring test). -/
def containsSub (pat : List Char) : List Char → Bool
  | [] => pat.isEmpty
  | c :: rest => listStartsWith pat (c :: rest) || containsSub pat rest

/-- One non-iterated left-to-right pass of Python `s.replace('__', '_')`. -/
def collapseDunder : List Char → List Char
  | [] => []
  | [c] => [c]
  | c :: d :: rest =>
    if c = '_' && d = '_' then '_' :: collapseDunder rest
    else c :: collapseDunder (d :: rest)

/-- `str(b).lower()` for a Python bool. -/
def pyBoolStr (b : Bool) : String := if b then "true" else "false"

/-- Python `s.startswith(pre)`. -/
def strStartsWith (pre s : String) : Bool := listStartsWith pre.data s.data

/-- Python `s.endswith(suf)`. -/
def strEndsWith (suf s : String) : Bool :=
  listStartsWith suf.data.reverse s.data.reverse

/-- ASCII lower-casing of one character (`str.lower`, ASCII model). -/
def asciiLower (c : Char) : Char :=
  if 65 ≤ c.toNat && c.toNat ≤ 90 then Char.ofNat (c.toNat + 32) else c

/-- Python `s.lower()` (ASCII model). -/
def pyLower (s : String) : String := ⟨s.data.map asciiLower⟩

/-- `os.path.isabs` on POSIX: starts with a slash. -/
def isAbsPath (s : String) : Bool := listStartsWith ['/'] s.data

/-! ## `shlex.split` (POSIX mode, whitespace_split, comments off)

State machine faithful to CPython's `shlex`: whitespace is
`' \t\r\n'`; single quotes are fully literal; inside double quotes a
backslash escapes only `"` and `\` (otherwise the backslash is kept);
outside quotes a backslash makes the next character literal.  An
unterminated quote or a trailing backslash raises `ValueError`,
modelled as `Except.error`. -/

def shlexWs : List Char := [' ', '\t', '\r', '\n']

inductive ShMode where
  | norm
  | inSingle
  | inDouble
  | escNorm
  | escDouble
deriving DecidableEq, Repr

def shlexGo : List Char → ShMode → Option (List Char) → List (List Char) →
    Except Unit (List (List Char))
  | [], .norm, none, acc => .ok acc
  | [], .norm, some t, acc => .ok (acc ++ [t])
  | [], .inSingle, _, _ => .error ()
  | [], .inDouble, _, _ => .error ()
  | [], .escNorm, _, _ => .error ()
  | [], .escDouble, _, _ => .error ()
  | c :: rest, .norm, cur, acc =>
    if shlexWs.contains c then
      match cur with
      | none => shlexGo rest .norm none acc
      | some t => shlexGo rest .norm none (acc ++ [t])
    else if c = '\'' then shlexGo rest .inSingle (some (cur.getD [])) acc
    else if c = '"' then shlexGo rest .inDouble (some (cur.getD [])) acc
    else if c = '\\' then shlexGo rest .escNorm (some (cur.getD [])) acc
    else shlexGo rest .norm (some (cur.getD [] ++ [c])) acc
  | c :: rest, .escNorm, cur, acc =>
    shlexGo rest .norm (some (cur.getD [] ++ [c])) acc
  | c :: rest, .inSingle, cur, acc =>
    if c = '\'' then shlexGo rest .norm (some (cur.getD [])) acc
    else shlexGo rest .inSingle (some (cur.getD [] ++ [c])) acc
  | c :: rest, .inDouble, cur, acc =>
    if c = '"' then shlexGo rest .norm (some (cur.getD [])) acc
    else if c = '\\' then shlexGo rest .escDouble cur acc
    else shlexGo rest .inDouble (some (cur.getD [] ++ [c])) acc
  | c :: rest, .escDouble, cur, acc =>
    if c = '"' || c = '\\' then
      shlexGo rest .inDouble (some (cur.getD [] ++ [c])) acc
    else shlexGo rest .inDouble (some (cur.getD [] ++ ['\\', c])) acc

instance instDecEqExcept {ε α : Type} [DecidableEq ε] [DecidableEq α] :
    DecidableEq (Except ε α)
  | .error e, .error f =>
    if h : e = f then .isTrue (by rw [h]) else .isFalse (by simp [h])
  | .error _, .ok _ => .isFalse (by simp)
  | .ok _, .error _ => .isFalse (by simp)
  | .ok a, .ok b =>
    if h : a = b then .isTrue (by rw [h]) else .isFalse (by simp [h])

/-- `shlex.split(s)` (POSIX); `Except.error` models `ValueError`. -/
def shlexSplit (s : String) : Except Unit (List String) :=
  (shlexGo s.data .norm none []).map (List.map (fun l => ⟨l⟩))

def isQuoteChar (c : Char) : Bool := c = '"' || c = '\''

/-- `part.strip('"\'')`: strip leading/trailing quote characters. -/
def stripQuotes (l : List Char) : List Char :=
  ((l.dropWhile isQuoteChar).reverse.dropWhile isQuoteChar).reverse

/-- The fallback tokenization of `find_executable_path` when `shlex.split`
raises: `[part.strip('"\'') for part in exec_string.split() if part.strip()]`. -/
def fallbackSplit (s : String) : List String :=
  ((pySplitWsL s.data).filter (fun p => !(pyStripL p).isEmpty)).map
    (fun p => (⟨stripQuotes p⟩ : String))

/-! ## The Flatpak ID regular expression

`parse_desktop_file` extracts the Flatpak application ID with

  `re.search(r"flatpak run\s+(--[a-zA-Z0-9=\-\.]+?\s+)*?([a-zA-Z0-9\.\-_]+)(?=\s|\Z)", exec)`

The matcher below hand-compiles exactly this pattern with Python's
backtracking order: leftmost starting position; the lazy star tries
zero iterations first; the lazy `+?` inside a flag grows shortest-first;
`\s+` is greedy (longest-first); the identifier `[a-zA-Z0-9\.\-_]+` is
greedy with the `(?=\s|\Z)` lookahead.  It returns capture group 2. -/

/-- `\s` of Python `re` (ASCII part). -/
def isReWs (c : Char) : Bool :=
  c = ' ' || c = '\t' || c = '\n' || c = '\r' || c = '\x0b' || c = '\x0c'

/-- `[a-zA-Z0-9=\-\.]`, the character class of a `--flag[=value]` token. -/
def isFlagChar (c : Char) : Bool := c.isAlphanum || c = '=' || c = '-' || c = '.'

/-- `[a-zA-Z0-9\.\-_]`, the character class of the captured ID. -/
def isIdChar (c : Char) : Bool := c.isAlphanum || c = '.' || c = '-' || c = '_'

/-- Try candidate values in order, returning the first success. -/
def firstSome (f : Nat → Option (List Char)) : List Nat → Option (List Char)
  | [] => none
  | k :: ks =>
    match f k with
    | some r => some r
    | none => firstSome f ks

/-- `([a-zA-Z0-9\.\-_]+)(?=\s|\Z)` at the current position: greedy,
longest capture first, lookahead requires whitespace or end of input. -/
def tryIdAt (s : List Char) : Option (List Char) :=
  idLoop (s.takeWhile isIdChar).length s
where
  idLoop : Nat → List Char → Option (List Char)
    | 0, _ => none
    | k + 1, s =>
      let rest := s.drop (k + 1)
      if rest.isEmpty || isReWs (rest.headD ' ') then some (s.take (k + 1))
      else idLoop k s

/-- `\s+` (greedy) then the continuation: try consuming the longest run
of whitespace first, backtracking down to one character. -/
def wsPlusThen (s : List Char) (k : List Char → Option (List Char)) :
    Option (List Char) :=
  let m := (s.takeWhile isReWs).length
  firstSome (fun n => k (s.drop n)) ((List.range m).map (fun i => m - i))

/-- `(--[a-zA-Z0-9=\-\.]+?\s+)*?([a-zA-Z0-9\.\-_]+)(?=\s|\Z)`:
the lazy star tries the ID immediately, then one more `--flag` token
(whose lazy body grows shortest-first, followed by greedy `\s+`). -/
def flagsThenId : Nat → List Char → Option (List Char)
  | 0, _ => none
  | fuel + 1, s =>
    match tryIdAt s with
    | some r => some r
    | none =>
      match s with
      | '-' :: '-' :: rest =>
        let run := (rest.takeWhile isFlagChar).length
        firstSome
          (fun k => wsPlusThen (rest.drop k) (flagsThenId fuel))
          ((List.range run).map (· + 1))
      | _ => none

def flatpakLit : List Char := "flatpak run".data

/-- `re.search`: try every starting position, leftmost first; at a match
of the literal `flatpak run`, run `\s+` then the flag/ID tail. -/
def reSearchFlatpak (fuel : Nat) : List Char → Option (List Char)
  | [] => none
  | c :: rest =>
    match
      (if listStartsWith flatpakLit (c :: rest) then
        wsPlusThen ((c :: rest).drop flatpakLit.length) (flagsThenId fuel)
      else none)
    with
    | some r => some r
    | none => reSearchFlatpak fuel rest

/-- Capture group 2 of the Flatpak ID regex over the raw `Exec` string,
`none` when `re.search` finds no match. -/
def flatpakIdOf (s : String) : Option String :=
  (reSearchFlatpak (s.length + 1) s.data).map (fun l => (⟨l⟩ : String))

/-! ## The filesystem / subprocess oracle and `find_executable_path` -/

/-- Outcome of `subprocess.run(['which', cand], capture_output=True, text=True,
check=False)`. -/
structure WhichResult where
  returncode : Int
  stdout : String
deriving DecidableEq, Repr

/-- Oracle for the effectful primitives touched by the resolver and the
writer: `os.path.exists` / `Path.exists`, `os.access(·, os.X_OK)`,
`Path.is_dir`, `Path.is_file`, and the `which` subprocess (`none` models
`FileNotFoundError` — `which` unavailable — or any other exception). -/
structure Env where
  pathExists : String → Bool
  accessX : String → Bool
  isDir : String → Bool
  isFile : String → Bool
  which : String → Option WhichResult

/-- The all-failing oracle: nothing exists, `which` raises. -/
def envNone : Env :=
  { pathExists := fun _ => false
    accessX := fun _ => false
    isDir := fun _ => false
    isFile := fun _ => false
    which := fun _ => none }

/-- `exec_parts`: `shlex.split`, falling back on `ValueError` to the
naive whitespace-and-quote-stripping split. -/
def execTokens (s : String) : List String :=
  match shlexSplit s with
  | .ok ps => ps
  | .error _ => fallbackSplit s

/-- `exec_candidate.split('%')[0]`. -/
def beforePct (s : String) : String := ⟨(pySplitCharL '%' s.data).headD []⟩

/-- Lines 297-321: absolute-path check, then `which` lookup, with the raw
string as fallback. -/
def resolveCandidate (env : Env) (cand exec_string : String) : String :=
  if isAbsPath cand && env.pathExists cand && env.accessX cand then cand
  else
    match env.which cand with
    | some r =>
      if r.returncode = 0 then
        let resolved_path := pyStrip r.stdout
        if env.accessX resolved_path then resolved_path else exec_string
      else exec_string
    | none => exec_string

/-- `find_executable_path(exec_string)`: tokenize, take the first token,
cut it at the first `%`, strip, then resolve; every failure path returns
the raw `exec_string`.  Totality of this function is the model of
"resolution never raises". -/
def find_executable_path (env : Env) (exec_string : String) : String :=
  match execTokens exec_string with
  | [] => exec_string
  | c0 :: _ =>
    let cand := pyStrip (beforePct c0)
    if cand = "" then exec_string
    else resolveCandidate env cand exec_string

/-! ## `parse_desktop_file` -/

/-- `desktop_dict[key] = value`: later assignments win, modelled by an
association list in insertion order queried from the right. -/
def dictGet (d : List (String × String)) (k : String) : Option String :=
  (d.reverse.find? (fun p => p.1 = k)).map (fun p => p.2)

/-- `desktop_dict.get(k, default)`. -/
def dictGetD (d : List (String × String)) (k dflt : String) : String :=
  (dictGet d k).getD dflt

/-- Lines 205-213: walk the lines, track the current `[...]` section, and
record `key=value` pairs (split at the first `=`) while inside
`[Desktop Entry]`. -/
def buildDictGo : List String → Option String → List (String × String) →
    List (String × String)
  | [], _, d => d
  | line :: rest, sec, d =>
    let l := pyStrip line
    if strStartsWith "[" l && strEndsWith "]" l then
      buildDictGo rest (some ⟨(l.data.drop 1).dropLast⟩) d
    else if sec = some "Desktop Entry" && containsSub ['='] l.data then
      let k : String := ⟨l.data.takeWhile (fun c => c ≠ '=')⟩
      let v : String := ⟨((l.data.dropWhile (fun c => c ≠ '=')).drop 1)⟩
      buildDictGo rest sec (d ++ [(k, v)])
    else buildDictGo rest sec d

/-- The `[Desktop Entry]`-scoped key-value pairs of a `.desktop` file's
content (`content.split('\n')`, stripped per line). -/
def buildDesktopDict (content : String) : List (String × String) :=
  buildDictGo (pySplitChar '\n' content) none []

/-- `os.environ.get('LANG', 'en_US.UTF-8').split('.')[0]`. -/
def langCodeOf (langEnv : Option String) : String :=
  ⟨(langEnv.getD "en_US.UTF-8").data.takeWhile (fun c => c ≠ '.')⟩

/-- The record returned by `parse_desktop_file`. -/
structure AppEntry where
  name : String
  exec : String
  resolved_path : String
  icon : String
  comment : String
  categories : String
  terminal : Bool
  desktop_file : String
deriving DecidableEq, Repr

def flatpakSystemDir : String := "/var/lib/flatpak/exports/share/applications/"

def flatpakUserDir (home : String) : String :=
  home ++ "/.local/share/flatpak/exports/share/applications/"

/-- `exec_string_original.split('/')[-1].split(' ')[0]` (line 248): the
"icon derived from the Exec string" heuristic. -/
def iconDerivedFromExec (exec_string : String) : String :=
  ⟨((pySplitCharL '/' exec_string.data).getLastD []).takeWhile (fun c => c ≠ ' ')⟩

/-- `parse_desktop_file(file_path)` on the file's text `content`, with the
`LANG` variable and the home directory made explicit.  I/O and decode
errors (the `except` branch returning `None`) are outside this pure
model: `content` is the successfully read text. -/
def parse_desktop_file (env : Env) (langEnv : Option String) (home : String)
    (file_path content : String) : AppEntry :=
  let d := buildDesktopDict content
  let lang_code := langCodeOf langEnv
  let name0 := dictGetD d ("Name[" ++ lang_code ++ "]") (dictGetD d "Name" "")
  let name := if name0 = "" then dictGetD d "GenericName" "" else name0
  let exec_string_original := dictGetD d "Exec" ""
  let icon0 := dictGetD d ("Icon[" ++ lang_code ++ "]") (dictGetD d "Icon" "")
  let comment := dictGetD d ("Comment[" ++ lang_code ++ "]") (dictGetD d "Comment" "")
  let categories := dictGetD d "Categories" ""
  let terminal := pyLower (dictGetD d "Terminal" "") = "true"
  let is_flatpak := pyLower (dictGetD d "X-Flatpak" "") = "true"
    || strStartsWith flatpakSystemDir file_path
    || strStartsWith (flatpakUserDir home) file_path
  let is_snap := containsSub "snap/gui".data exec_string_original.data && !is_flatpak
  let base : AppEntry :=
    { name := name
      exec := exec_string_original
      resolved_path := exec_string_original
      icon := icon0
      comment := comment
      categories := categories
      terminal := terminal
      desktop_file := file_path }
  if is_flatpak then
    match flatpakIdOf exec_string_original with
    | some flatpak_id =>
      { base with
        resolved_path := "flatpak run " ++ flatpak_id
        icon :=
          if icon0 = "" || icon0 = iconDerivedFromExec exec_string_original then
            flatpak_id
          else icon0 }
    | none => base
  else if is_snap then base
  else { base with resolved_path := find_executable_path env exec_string_original }

/-! ## `load_applications` -/

/-- The comparison used by `self.applications.sort(key=lambda x:
x['name'].lower())`. -/
def nameLe (a b : AppEntry) : Bool := decide (pyLower a.name ≤ pyLower b.name)

/-- `load_applications` restricted to its pure part: parse every scanned
file, keep entries with non-empty `name` and `exec`, sort by lowercased
name.  `files` is the list of `(path, content)` pairs produced by the
directory scan. -/
def load_applications (env : Env) (langEnv : Option String) (home : String)
    (files : List (String × String)) : List AppEntry :=
  ((files.map (fun fc => parse_desktop_file env langEnv home fc.1 fc.2)).filter
      (fun a => !(a.name = "") && !(a.exec = ""))).mergeSort nameLe

/-! ## The scan-directory computation (lines 163-187) -/

def baseDesktopDirs (home : String) : List String :=
  ["/usr/share/applications/",
   "/usr/local/share/applications/",
   home ++ "/.local/share/applications/",
   "/var/lib/snapd/desktop/applications/",
   "/var/lib/flatpak/exports/share/applications/",
   home ++ "/.local/share/flatpak/exports/share/applications/"]

/-- `os.path.join(a, b)` on POSIX for a single component `b`. -/
def osPathJoin (a b : String) : String :=
  if isAbsPath b then b
  else if a = "" || strEndsWith "/" a then a ++ b
  else a ++ "/" ++ b

/-- Keep the first occurrence of each element.  `list(set(l))` in CPython
enumerates in an unspecified hash order; the claims proved below depend
only on the resulting set of elements, so we fix first-occurrence order
as the canonical one. -/
def dedupKeepFirst (seen : List String) : List String → List String
  | [] => []
  | x :: xs =>
    if seen.contains x then dedupKeepFirst seen xs
    else x :: dedupKeepFirst (x :: seen) xs

/-- Lines 163-187: the list of directories scanned by `load_applications`,
from the built-in list, `XDG_DATA_DIRS`, and `XDG_DATA_HOME`, then
`list(set(...))` and the `os.path.exists` filter. -/
def computeDesktopDirs (home : String) (xdgDataDirs xdgDataHome : Option String)
    (dirExists : String → Bool) : List String :=
  let dirs0 := baseDesktopDirs home
  let xdgList := pySplitChar ':' (xdgDataDirs.getD "")
  let dirs1 := xdgList.foldl
    (fun acc d =>
      if !(d = "") && !acc.contains d then acc ++ [osPathJoin d "applications"]
      else acc)
    dirs0
  let xdg_data_home := xdgDataHome.getD (home ++ "/.local/share")
  let dirs2 :=
    if !(xdg_data_home = "") &&
        !dirs1.contains (home ++ "/.local/share/applications/") then
      dirs1 ++ [osPathJoin xdg_data_home "applications"]
    else dirs1
  (dedupKeepFirst [] dirs2).filter dirExists

/-! ## `create_shortcut` -/

/-- Lines 499-518: the exact text written to the `.desktop` file.  All of
`desc`, `icon`, `cats` are the already-`strip()`ed optional field values. -/
def desktopContent (name exec_command working_dir desc icon cats : String)
    (terminal : Bool) : String :=
  "[Desktop Entry]\n" ++
  "Version=1.0\n" ++
  "Type=Application\n" ++
  "Name=" ++ name ++ "\n" ++
  "Exec=" ++ exec_command ++ "\n" ++
  (if !(working_dir = "") then "Path=" ++ working_dir ++ "\n" else "") ++
  (if !(desc = "") then "Comment=" ++ desc ++ "\n" else "") ++
  (if !(icon = "") then "Icon=" ++ icon ++ "\n" else "") ++
  (if !(cats = "") then "Categories=" ++ cats ++ ";\n" else "") ++
  "Terminal=" ++ pyBoolStr terminal ++ "\n" ++
  "StartupNotify=true\n"

/-- `str(Path(p).parent)` for an already-normalized POSIX path: the text
before the last slash (`"/"` for a root child, `"."` when there is no
slash). -/
def posixParent (p : String) : String :=
  if containsSub ['/'] p.data then
    let tailLen := (p.data.reverse.takeWhile (fun c => c ≠ '/')).length
    let q := p.data.take (p.data.length - tailLen - 1)
    if q.isEmpty then "/" else ⟨q⟩
  else "."

/-- Lines 474-496: the `Path=` derivation.  Flatpak/Snap commands get no
working directory; an absolute existing path is used directly (directory)
or through its parent (file); otherwise the command is resolved as in
`find_executable_path` and the parent of the resolved file is used. -/
def workingDirFor (env : Env) (exec_command : String) : String :=
  if strStartsWith "flatpak run" exec_command || strStartsWith "snap run" exec_command then
    ""
  else if isAbsPath exec_command && env.pathExists exec_command then
    if env.isDir exec_command then exec_command
    else if env.isFile exec_command then posixParent exec_command
    else ""
  else
    let resolved_bin_path := find_executable_path env exec_command
    if isAbsPath resolved_bin_path && env.isFile resolved_bin_path then
      posixParent resolved_bin_path
    else ""

def allowedFileChar (c : Char) : Bool :=
  c.isAlphanum || c = ' ' || c = '-' || c = '_' || c = '.'

/-- Line 528: `"".join(c if c.isalnum() or c in (' ', '-', '_', '.') else '_'
for c in name).strip().replace('__', '_')` (ASCII model of `isalnum`). -/
def sanitizeFileName (name : String) : String :=
  ⟨collapseDunder (pyStripL (name.data.map
    (fun c => if allowedFileChar c then c else '_')))⟩

/-- Lines 528-530: the sanitized filename stem with its fallback. -/
def safeFileName (name : String) : String :=
  let safe_name := sanitizeFileName name
  if safe_name = "" then "untitled_shortcut" else safe_name

/-- `str(dest_dir / filename)` for an already-normalized destination. -/
def joinPath (dir filename : String) : String :=
  if strEndsWith "/" dir then dir ++ filename else dir ++ "/" ++ filename

/-- The GUI-session oracle for `create_shortcut`: the filesystem oracle,
whether the destination directory already exists, which target files
exist, and the user's answer to the overwrite dialog. -/
structure GuiEnv where
  fs : Env
  destDirExists : Bool
  fileExists : String → Bool
  confirmOverwrite : Bool

/-- Result of `create_shortcut`.  `invalidInput` models the two
validation `messagebox.showerror` early returns; `cancelled` the
user-declined overwrite (line 541), which performs no write and no
chmod; `created` the successful write of `content` to `path` followed by
`os.chmod(path, mode)`.  `madeDestDir` records whether the destination
directory had to be created (`mkdir` happens before the overwrite
check); write/mkdir I/O exceptions (the outer `except`) are outside this
pure model. -/
inductive CreateResult where
  | invalidInput
  | cancelled (madeDestDir : Bool)
  | created (madeDestDir : Bool) (path content : String) (mode : Nat)
deriving DecidableEq, Repr

/-- Lines 455-548: validation, working-directory derivation, content
serialization, filename sanitization, overwrite confirmation, write and
chmod. -/
def create_shortcut (g : GuiEnv) (nameRaw pathRaw descRaw iconRaw catsRaw : String)
    (terminal : Bool) (destDir : String) : CreateResult :=
  let name := pyStrip nameRaw
  let exec_command := pyStrip pathRaw
  if name = "" then .invalidInput
  else if exec_command = "" then .invalidInput
  else
    let working_dir := workingDirFor g.fs exec_command
    let content := desktopContent name exec_command working_dir
      (pyStrip descRaw) (pyStrip iconRaw) (pyStrip catsRaw) terminal
    let madeDestDir := !g.destDirExists
    let safe_name := safeFileName name
    let desktop_file_path := joinPath destDir (safe_name ++ ".desktop")
    if g.fileExists desktop_file_path && !g.confirmOverwrite then
      .cancelled madeDestDir
    else .created madeDestDir desktop_file_path content 0o755

/-- The permission mode passed to `os.chmod` (line 548). -/
def ownerBits (m : Nat) : Nat := m / 64 % 8

def groupBits (m : Nat) : Nat := m / 8 % 8

def otherBits (m : Nat) : Nat := m % 8

/-- The mode of a successful `create_shortcut`, `none` otherwise. -/
def createdMode : CreateResult → Option Nat
  | .created _ _ _ m => some m
  | _ => none

/-! ## Shared concrete oracles for evaluation -/

/-- A session where the destination directory exists, no target file
exists, and the filesystem oracle is all-failing. -/
def gEnvFresh : GuiEnv :=
  { fs := envNone
    destDirExists := true
    fileExists := fun _ => false
    confirmOverwrite := false }

/-- The `Exec` line that the source code's own comment (lines 237-239)
and the spec use as the canonical Flatpak example. -/
def zenExec : String :=
  "/usr/bin/flatpak run --branch=stable --arch=x86_64 --command=zen-browser app.zen_browser.zen @@u %U @@"

/-- The same line with `x86-64` in place of `x86_64`. -/
def zenExecDash : String :=
  "/usr/bin/flatpak run --branch=stable --arch=x86-64 --command=zen-browser app.zen_browser.zen @@u %U @@"

/-! ## Claims -/

/-- **C1.** The claim (and the code's own comment, lines 237-239) says the
canonical Flatpak line `Exec=/usr/bin/flatpak run --branch=stable
--arch=x86_64 --command=zen-browser app.zen_browser.zen @@u %U @@`
resolves to `flatpak run app.zen_browser.zen`.  It does not: the regex's
flag-token class `[a-zA-Z0-9=\-\.]` has no underscore, so
`--arch=x86_64` can never be consumed as a flag, the search fails, and
`parse_desktop_file` falls back to the raw `Exec` string.  The third and
fourth conjuncts show the matcher does extract the ID once the
underscore flag is gone, isolating the blocker. -/
theorem c1_flatpak_regex_misses_documented_example :
    (parse_desktop_file envNone none "/home/u"
        "/var/lib/flatpak/exports/share/applications/zen.desktop"
        ("[Desktop Entry]\nName=Zen Browser\nExec=" ++ zenExec ++ "\nX-Flatpak=true\n")).resolved_path
      = zenExec ∧
    flatpakIdOf zenExec = none ∧
    flatpakIdOf zenExecDash = some "app.zen_browser.zen" ∧
    flatpakIdOf "flatpak run --branch=stable app.zen_browser.zen @@u %U @@" =
      some "app.zen_browser.zen" := by
  refine ⟨by decide, by decide, by decide, by decide⟩

/-- **C2, counterexample.** With `LANG=fr_FR.UTF-8` and keys `Name=Foo`,
`Name[fr]=Fou`, the claim says the parsed name is `Fou`.  The code keeps
the full `fr_FR` (it only strips the encoding suffix, never the
territory), looks up `Name[fr_FR]`, misses, and falls back to `Name`,
giving `Foo`. -/
theorem c2_locale_counterexample :
    (parse_desktop_file envNone (some "fr_FR.UTF-8") "/home/u"
        "/usr/share/applications/app.desktop"
        "[Desktop Entry]\nName=Foo\nName[fr]=Fou\nExec=foo\n").name = "Foo" ∧
    ¬ (parse_desktop_file envNone (some "fr_FR.UTF-8") "/home/u"
        "/usr/share/applications/app.desktop"
        "[Desktop Entry]\nName=Foo\nName[fr]=Fou\nExec=foo\n").name = "Fou" := by
  refine ⟨by decide, by decide⟩

/-- Modelled from the amended claim's words: the preferred key suffix is
the entire `LANG` value up to (not including) the first `.`, e.g.
`fr_FR`; prefer `Name[<code>]`, fall back to `Name`, and to
`GenericName` when the result is empty. -/
def nameSpec (code : String) (d : List (String × String)) : String :=
  let preferred := dictGetD d ("Name[" ++ code ++ "]") (dictGetD d "Name" "")
  if preferred = "" then dictGetD d "GenericName" "" else preferred

/-- Modelled from the amended claim's words: prefer `Icon[<code>]`, fall
back to the unsuffixed `Icon` (empty default). -/
def iconSpec (code : String) (d : List (String × String)) : String :=
  dictGetD d ("Icon[" ++ code ++ "]") (dictGetD d "Icon" "")

/-- Modelled from the amended claim's words: prefer `Comment[<code>]`,
fall back to the unsuffixed `Comment` (empty default). -/
def commentSpec (code : String) (d : List (String × String)) : String :=
  dictGetD d ("Comment[" ++ code ++ "]") (dictGetD d "Comment" "")

/-- **C2, amended.** The locale code used for the `Name[...]`, `Icon[...]`,
`Comment[...]` lookups is the whole `LANG` value stripped of its
encoding suffix (`fr_FR`, not the primary subtag `fr`).  The parsed name
follows the `Name[<code>]` → `Name` → `GenericName` preference; the
parsed comment follows `Comment[<code>]` → `Comment` in every branch;
the parsed icon follows `Icon[<code>]` → `Icon` except that the Flatpak
branch (line 248) may replace a missing or Exec-derived icon by the
matched Flatpak ID — so the icon is always either the locale-preferred
lookup or that ID.  With `LANG=fr_FR.UTF-8`, `Name=Foo` and
`Name[fr]=Fou` resolve to `Foo`, `Name[fr_FR]=Fou` resolves to `Fou`,
and `Icon[fr_FR]` / `Comment[fr_FR]` are likewise preferred over `Icon`
/ `Comment`. -/
theorem c2_locale_key_is_lang_without_encoding :
    (∀ (env : Env) (langEnv : Option String) (home fp content : String),
      (parse_desktop_file env langEnv home fp content).name =
        nameSpec (langCodeOf langEnv) (buildDesktopDict content) ∧
      (parse_desktop_file env langEnv home fp content).comment =
        commentSpec (langCodeOf langEnv) (buildDesktopDict content) ∧
      ((parse_desktop_file env langEnv home fp content).icon =
          iconSpec (langCodeOf langEnv) (buildDesktopDict content) ∨
        ∃ fid,
          flatpakIdOf (dictGetD (buildDesktopDict content) "Exec" "") = some fid ∧
          (parse_desktop_file env langEnv home fp content).icon = fid)) ∧
    langCodeOf (some "fr_FR.UTF-8") = "fr_FR" ∧
    (parse_desktop_file envNone (some "fr_FR.UTF-8") "/home/u"
        "/usr/share/applications/app.desktop"
        "[Desktop Entry]\nName=Foo\nName[fr_FR]=Fou\nExec=foo\n").name = "Fou" ∧
    (parse_desktop_file envNone (some "fr_FR.UTF-8") "/home/u"
        "/usr/share/applications/app.desktop"
        "[Desktop Entry]\nName=Foo\nExec=foo\nIcon=ico\nIcon[fr_FR]=icofr\nComment=com\nComment[fr_FR]=comfr\n").icon
      = "icofr" ∧
    (parse_desktop_file envNone (some "fr_FR.UTF-8") "/home/u"
        "/usr/share/applications/app.desktop"
        "[Desktop Entry]\nName=Foo\nExec=foo\nIcon=ico\nIcon[fr_FR]=icofr\nComment=com\nComment[fr_FR]=comfr\n").comment
      = "comfr" := by
  refine ⟨fun env langEnv home fp content => ?_,
    by decide, by decide, by decide, by decide⟩
  simp only [parse_desktop_file, nameSpec, iconSpec, commentSpec]
  split
  · split
    · next fid hfid =>
      refine ⟨rfl, rfl, ?_⟩
      dsimp only
      split
      · exact .inr ⟨fid, hfid, rfl⟩
      · exact .inl rfl
    · exact ⟨rfl, rfl, .inl rfl⟩
  · split
    · exact ⟨rfl, rfl, .inl rfl⟩
    · exact ⟨rfl, rfl, .inl rfl⟩

/-- Characters surviving the sanitization filter. -/
theorem mem_pyStripL {a : Char} {l : List Char} (h : a ∈ pyStripL l) : a ∈ l := by
  unfold pyStripL at h
  rw [List.mem_reverse] at h
  have h2 := (List.dropWhile_sublist isPyWs).mem h
  rw [List.mem_reverse] at h2
  exact (List.dropWhile_sublist isPyWs).mem h2

theorem mem_collapseDunder {a : Char} :
    ∀ {l : List Char}, a ∈ collapseDunder l → a ∈ l ∨ a = '_'
  | [], h => by simp [collapseDunder] at h
  | [c], h => by
    simp [collapseDunder] at h
    simp [h]
  | c :: d :: rest, h => by
    unfold collapseDunder at h
    split at h
    · rcases List.mem_cons.1 h with h1 | h1
      · right; exact h1
      · rcases mem_collapseDunder h1 with h2 | h2
        · left; simp [h2]
        · right; exact h2
    · rcases List.mem_cons.1 h with h1 | h1
      · left; simp [h1]
      · rcases mem_collapseDunder h1 with h2 | h2
        · left; simp [List.mem_cons.1 h2]
        · right; exact h2

/-- **C5.** Filename sanitization: the worked example `"My/App:2024" ↦
"My_App_2024"`; the collapse of `__` is a single non-iterated pass
(`"a////b"` maps to `a__b`, not `a_b`); the empty name gets the fixed
fallback; and for every name the result is non-empty and made only of
alphanumerics, spaces, hyphens, underscores and dots. -/
theorem c5_filename_sanitization :
    safeFileName "My/App:2024" = "My_App_2024" ∧
    safeFileName "a////b" = "a__b" ∧
    safeFileName "" = "untitled_shortcut" ∧
    ∀ n : String, safeFileName n ≠ "" ∧
      (safeFileName n).data.all allowedFileChar = true := by
  refine ⟨by decide, by decide, by decide, fun n => ?_⟩
  by_cases hne : sanitizeFileName n = ""
  · have h : safeFileName n = "untitled_shortcut" := by simp [safeFileName, hne]
    rw [h]
    exact ⟨by decide, by decide⟩
  · have h : safeFileName n = sanitizeFileName n := by simp [safeFileName, hne]
    rw [h]
    refine ⟨hne, ?_⟩
    unfold sanitizeFileName
    rw [List.all_eq_true]
    intro a ha
    rcases mem_collapseDunder (l := pyStripL (n.data.map
        (fun c => if allowedFileChar c then c else '_'))) ha with h1 | h1
    · have h2 := mem_pyStripL h1
      rcases List.mem_map.1 h2 with ⟨c, _, hc⟩
      by_cases hac : allowedFileChar c
      · simp [hac] at hc; rw [← hc]; exact hac
      · simp [hac] at hc; rw [← hc]; decide
    · rw [h1]; decide

/-- Witness for the universally quantified clause of
`c5_filename_sanitization` at a concrete name. -/
theorem c5_filename_sanitization_witness :
    safeFileName "Zorin OS" ≠ "" ∧
      (safeFileName "Zorin OS").data.all allowedFileChar = true :=
  c5_filename_sanitization.2.2.2 "Zorin OS"

/-- **C6, counterexample.** The mode set by `os.chmod` is `0o755`:
owner `rwx` but group and other only `r-x`, so the claim that "owner,
group and other all have read+write+execute" is false for every created
shortcut; here it is refuted on a concrete successful creation. -/
theorem c6_mode_counterexample :
    createdMode (create_shortcut gEnvFresh "app" "/bin/sh" "" "" "" false
      "/home/u/Desktop") = some 0o755 ∧
    ¬ (ownerBits 0o755 = 7 ∧ groupBits 0o755 = 7 ∧ otherBits 0o755 = 7) := by
  refine ⟨by decide, by decide⟩

/-- **C6, amended.** After every successful shortcut write the file mode
is `0o755`: owner read+write+execute, group and other read+execute
(no write). -/
theorem c6_created_mode_is_0755 (g : GuiEnv)
    (nameRaw pathRaw descRaw iconRaw catsRaw : String) (terminal : Bool)
    (destDir : String) (md : Bool) (p c : String) (m : Nat)
    (h : create_shortcut g nameRaw pathRaw descRaw iconRaw catsRaw terminal
      destDir = .created md p c m) :
    m = 0o755 ∧ ownerBits m = 7 ∧ groupBits m = 5 ∧ otherBits m = 5 := by
  simp only [create_shortcut] at h
  split at h
  · exact absurd h (by simp)
  · split at h
    · exact absurd h (by simp)
    · split at h
      · exact absurd h (by simp)
      · rcases h with ⟨⟩
        refine ⟨rfl, by decide, by decide, by decide⟩

/-- Witness for `c6_created_mode_is_0755` at a concrete creation. -/
theorem c6_created_mode_is_0755_witness :
    (493 : Nat) = 0o755 ∧ ownerBits 493 = 7 ∧ groupBits 493 = 5 ∧
      otherBits 493 = 5 :=
  c6_created_mode_is_0755 gEnvFresh "app" "/bin/sh" "" "" "" false
    "/home/u/Desktop" false "/home/u/Desktop/app.desktop"
    (desktopContent "app" "/bin/sh" "" "" "" "" false) 493 (by decide)

/-- **C8.** When the target `.desktop` file exists and the user declines
the overwrite dialog, `create_shortcut` returns through line 541: the
result is `cancelled`, a constructor that carries no write and no chmod,
so the existing file's content and permissions are untouched and no new
file is written. -/
theorem c8_decline_overwrite_writes_nothing (g : GuiEnv)
    (nameRaw pathRaw descRaw iconRaw catsRaw : String) (terminal : Bool)
    (destDir : String)
    (hname : ¬ pyStrip nameRaw = "") (hexec : ¬ pyStrip pathRaw = "")
    (htarget : g.fileExists
      (joinPath destDir (safeFileName (pyStrip nameRaw) ++ ".desktop")) = true)
    (hdecline : g.confirmOverwrite = false) :
    create_shortcut g nameRaw pathRaw descRaw iconRaw catsRaw terminal destDir =
      .cancelled (!g.destDirExists) := by
  simp only [create_shortcut]
  rw [if_neg hname, if_neg hexec, htarget, hdecline]
  simp

/-- The fresh-session oracle with every target file already present and
the overwrite dialog answered "no". -/
def gEnvDecline : GuiEnv :=
  { fs := envNone
    destDirExists := true
    fileExists := fun _ => true
    confirmOverwrite := false }

/-- Witness for `c8_decline_overwrite_writes_nothing`. -/
theorem c8_decline_overwrite_writes_nothing_witness :
    create_shortcut gEnvDecline "app" "/bin/sh" "" "" "" false
      "/home/u/Desktop" = .cancelled false :=
  c8_decline_overwrite_writes_nothing gEnvDecline "app" "/bin/sh" "" "" ""
    false "/home/u/Desktop" (by decide) (by decide) (by decide) (by decide)

/-- An oracle is well-behaved when a successful `which` prints an
absolute path (after stripping) and `os.access(p, X_OK)` only succeeds
on paths that exist — both facts about the host system, not about the
program. -/
theorem resolveCandidate_spec (env : Env) (cand ex : String)
    (hwhich : ∀ c r, env.which c = some r → r.returncode = 0 →
      isAbsPath (pyStrip r.stdout) = true)
    (haccess : ∀ p, env.accessX p = true → env.pathExists p = true) :
    resolveCandidate env cand ex = ex ∨
      (isAbsPath (resolveCandidate env cand ex) = true ∧
       env.pathExists (resolveCandidate env cand ex) = true ∧
       env.accessX (resolveCandidate env cand ex) = true) := by
  unfold resolveCandidate
  split
  · next h1 =>
    right
    simp only [Bool.and_eq_true] at h1
    exact ⟨h1.1.1, h1.1.2, h1.2⟩
  · next h1 =>
    split
    · next r hw =>
      split
      · next h2 =>
        dsimp only
        split
        · next h3 =>
          exact .inr ⟨hwhich cand r hw h2, haccess _ h3, h3⟩
        · next h3 =>
          exact .inl rfl
      · next h2 =>
        exact .inl rfl
    · next hw =>
      exact .inl rfl

/-- **C3.** `find_executable_path` is total (it is a Lean function — the
model of "never raises"), and on a well-behaved host its result is
either the original raw `Exec` string unchanged (every failure case:
empty tokenization, empty candidate after cutting at `%`, absolute path
missing or not executable, `which` absent, erroring or unsuccessful,
looked-up path not executable) or an absolute path to an existing
executable file. -/
theorem c3_resolver_never_raises_falls_back (env : Env) (s : String)
    (hwhich : ∀ c r, env.which c = some r → r.returncode = 0 →
      isAbsPath (pyStrip r.stdout) = true)
    (haccess : ∀ p, env.accessX p = true → env.pathExists p = true) :
    find_executable_path env s = s ∨
      (isAbsPath (find_executable_path env s) = true ∧
       env.pathExists (find_executable_path env s) = true ∧
       env.accessX (find_executable_path env s) = true) := by
  unfold find_executable_path
  cases htok : execTokens s with
  | nil => exact .inl rfl
  | cons c0 rest =>
    dsimp only
    by_cases hc : pyStrip (beforePct c0) = ""
    · rw [if_pos hc]
      exact .inl rfl
    · rw [if_neg hc]
      exact resolveCandidate_spec env (pyStrip (beforePct c0)) s hwhich haccess

/-- Witness for `c3_resolver_never_raises_falls_back` on the all-failing
oracle. -/
theorem c3_resolver_never_raises_falls_back_witness :
    find_executable_path envNone "vim %f" = "vim %f" ∨
      (isAbsPath (find_executable_path envNone "vim %f") = true ∧
       envNone.pathExists (find_executable_path envNone "vim %f") = true ∧
       envNone.accessX (find_executable_path envNone "vim %f") = true) :=
  c3_resolver_never_raises_falls_back envNone "vim %f"
    (fun c r h => by simp [envNone] at h) (fun p h => by simp [envNone] at h)

theorem pySplitCharL_ne_nil (sep : Char) (l : List Char) :
    pySplitCharL sep l ≠ [] := by
  cases l with
  | nil => simp [pySplitCharL]
  | cons c rest =>
    unfold pySplitCharL
    split
    · simp
    · split <;> simp

theorem headD_pySplitCharL (sep : Char) (l : List Char) :
    (pySplitCharL sep l).headD [] = l.takeWhile (fun c => c != sep) := by
  induction l with
  | nil => rfl
  | cons c rest ih =>
    unfold pySplitCharL
    by_cases h : c = sep
    · rw [if_pos h]
      simp [List.takeWhile_cons, h]
    · rw [if_neg h]
      cases hs : pySplitCharL sep rest with
      | nil => exact absurd hs (pySplitCharL_ne_nil sep rest)
      | cons t ts =>
        rw [hs] at ih
        simp only [List.headD_cons] at ih
        simp [List.takeWhile_cons, h, ← ih]

/-- **C10.** The field-code stripping in `find_executable_path` cuts the
first token at its *first* `%` and discards everything after it
(`split('%')[0]`), not merely a trailing `%x` suffix: whenever
tokenization yields a first token containing `%`, the candidate that the
filesystem/PATH lookup receives is the stripped prefix of that token
before its first `%`, and when that prefix strips to empty the raw
`Exec` string is returned unchanged. -/
theorem c10_candidate_cut_at_first_percent (env : Env) (s t : String)
    (rest : List String) (htok : execTokens s = t :: rest)
    (_hpct : containsSub ['%'] t.data = true) :
    find_executable_path env s =
      (if pyStrip ⟨t.data.takeWhile (fun c => c != '%')⟩ = "" then s
       else resolveCandidate env (pyStrip ⟨t.data.takeWhile (fun c => c != '%')⟩) s) := by
  unfold find_executable_path
  rw [htok]
  dsimp only
  have hb : beforePct t = ⟨t.data.takeWhile (fun c => c != '%')⟩ := by
    unfold beforePct
    rw [headD_pySplitCharL]
  rw [hb]

/-- Witness for `c10_candidate_cut_at_first_percent`: a binary named
`a%b` is looked up as `/opt/a`, and since nothing matches, the raw
string comes back. -/
theorem c10_candidate_cut_at_first_percent_witness :
    find_executable_path envNone "/opt/a%b run" =
      (if pyStrip ⟨"/opt/a%b".data.takeWhile (fun c => c != '%')⟩ = ""
       then "/opt/a%b run"
       else resolveCandidate envNone
         (pyStrip ⟨"/opt/a%b".data.takeWhile (fun c => c != '%')⟩)
         "/opt/a%b run") :=
  c10_candidate_cut_at_first_percent envNone "/opt/a%b run" "/opt/a%b"
    ["run"] (by decide) (by decide)

/-- **C7.** Every entry of the catalog built by `load_applications` has a
non-empty `name` and a non-empty `exec` (files lacking
`Name`/`GenericName` or `Exec` parse to entries with empty fields and
are dropped by this very filter), and the catalog is sorted by the
lowercased name.  `load_applications` is also what `refresh_applications`
calls, so the invariant holds after every load and refresh. -/
theorem c7_catalog_nonempty_sorted (env : Env) (langEnv : Option String)
    (home : String) (files : List (String × String)) :
    (load_applications env langEnv home files).all
        (fun a => !(a.name = "") && !(a.exec = "")) = true ∧
    (load_applications env langEnv home files).Pairwise
      (fun a b => nameLe a b = true) := by
  constructor
  · rw [List.all_eq_true]
    intro a ha
    unfold load_applications at ha
    have hmem := List.mem_mergeSort.1 ha
    exact (List.mem_filter.1 hmem).2
  · unfold load_applications
    exact List.sorted_mergeSort
      (fun a b c h1 h2 => by
        simp only [nameLe, decide_eq_true_eq] at h1 h2 ⊢
        exact le_trans h1 h2)
      (fun a b => by
        simp only [nameLe, Bool.or_eq_true, decide_eq_true_eq]
        exact le_total _ _)
      _

theorem mem_dedupKeepFirst {x : String} :
    ∀ (l seen : List String), x ∈ dedupKeepFirst seen l ↔
      (x ∈ l ∧ seen.contains x = false)
  | [], seen => by simp [dedupKeepFirst]
  | y :: ys, seen => by
    unfold dedupKeepFirst
    by_cases h : seen.contains y
    · rw [if_pos h, mem_dedupKeepFirst ys seen]
      constructor
      · rintro ⟨h1, h2⟩
        exact ⟨List.mem_cons_of_mem y h1, h2⟩
      · rintro ⟨h1, h2⟩
        rcases List.mem_cons.1 h1 with rfl | h1
        · rw [h] at h2
          cases h2
        · exact ⟨h1, h2⟩
    · rw [if_neg h]
      rw [List.mem_cons, mem_dedupKeepFirst ys (y :: seen)]
      constructor
      · rintro (rfl | ⟨h1, h2⟩)
        · refine ⟨List.mem_cons_self x ys, ?_⟩
          cases hx : seen.contains x
          · rfl
          · exact absurd hx h
        · refine ⟨List.mem_cons_of_mem y h1, ?_⟩
          simp only [List.contains_cons, Bool.or_eq_false_iff] at h2
          exact h2.2
      · rintro ⟨h1, h2⟩
        rcases List.mem_cons.1 h1 with rfl | h1
        · exact .inl rfl
        · by_cases hxy : x = y
          · exact .inl hxy
          · refine .inr ⟨h1, ?_⟩
            simp only [List.contains_cons, Bool.or_eq_false_iff]
            refine ⟨?_, h2⟩
            simp only [List.contains_eq_any_beq, List.any_cons, List.any_nil,
              Bool.or_false, beq_eq_false_iff_ne]
            exact hxy

theorem nodup_dedupKeepFirst :
    ∀ (l seen : List String), (dedupKeepFirst seen l).Nodup
  | [], seen => by simp [dedupKeepFirst]
  | y :: ys, seen => by
    unfold dedupKeepFirst
    by_cases h : seen.contains y
    · rw [if_pos h]
      exact nodup_dedupKeepFirst ys seen
    · rw [if_neg h]
      refine List.nodup_cons.2 ⟨?_, nodup_dedupKeepFirst ys (y :: seen)⟩
      intro hy
      have := (mem_dedupKeepFirst ys (y :: seen)).1 hy
      simp [List.contains_cons] at this

/-- Membership is preserved from the built-in list through the
`XDG_DATA_DIRS` fold. -/
theorem mem_foldl_xdg {x : String} :
    ∀ (xs : List String) (acc : List String), x ∈ acc →
      x ∈ xs.foldl
        (fun acc d =>
          if !(d = "") && !acc.contains d then acc ++ [osPathJoin d "applications"]
          else acc) acc
  | [], _, hx => hx
  | d :: ds, acc, hx => by
    rw [List.foldl_cons]
    apply mem_foldl_xdg ds
    split
    · exact List.mem_append_left _ hx
    · exact hx

/-- **C9.** The scanned directory list is duplicate-free and contains
only directories that exist; in particular a directory named both in the
built-in list and through `XDG_DATA_DIRS` — here the head entry
`/usr/share/applications/` — appears exactly once per load. -/
theorem c9_scan_dirs_dedup_exist (home : String)
    (xdgDataDirs xdgDataHome : Option String) (dirExists : String → Bool)
    (hex : dirExists "/usr/share/applications/" = true) :
    (computeDesktopDirs home xdgDataDirs xdgDataHome dirExists).Nodup ∧
    (computeDesktopDirs home xdgDataDirs xdgDataHome dirExists).all dirExists
      = true ∧
    (computeDesktopDirs home xdgDataDirs xdgDataHome dirExists).count
      "/usr/share/applications/" = 1 := by
  have hnodup : (computeDesktopDirs home xdgDataDirs xdgDataHome dirExists).Nodup := by
    unfold computeDesktopDirs
    exact (nodup_dedupKeepFirst _ _).filter _
  refine ⟨hnodup, ?_, ?_⟩
  · rw [List.all_eq_true]
    intro d hd
    unfold computeDesktopDirs at hd
    exact (List.mem_filter.1 hd).2
  · apply List.count_eq_one_of_mem hnodup
    unfold computeDesktopDirs
    apply List.mem_filter.2
    refine ⟨?_, hex⟩
    apply (mem_dedupKeepFirst _ _).2
    refine ⟨?_, rfl⟩
    split
    · apply List.mem_append_left
      apply mem_foldl_xdg
      simp [baseDesktopDirs]
    · apply mem_foldl_xdg
      simp [baseDesktopDirs]

/-- Witness for `c9_scan_dirs_dedup_exist` with `XDG_DATA_DIRS`
repeating a built-in directory. -/
theorem c9_scan_dirs_dedup_exist_witness :
    (computeDesktopDirs "/home/u"
        (some "/usr/share/applications/:/usr/share") none (fun _ => true)).Nodup ∧
    (computeDesktopDirs "/home/u"
        (some "/usr/share/applications/:/usr/share") none (fun _ => true)).all
      (fun _ => true) = true ∧
    (computeDesktopDirs "/home/u"
        (some "/usr/share/applications/:/usr/share") none (fun _ => true)).count
      "/usr/share/applications/" = 1 :=
  c9_scan_dirs_dedup_exist "/home/u"
    (some "/usr/share/applications/:/usr/share") none (fun _ => true) (by decide)

theorem pySplitCharL_append (sep : Char) (a b : List Char)
    (h : ∀ c ∈ a, ¬ c = sep) :
    pySplitCharL sep (a ++ sep :: b) = a :: pySplitCharL sep b := by
  induction a with
  | nil => simp [pySplitCharL]
  | cons c a ih =>
    have hc : ¬ c = sep := h c (List.mem_cons_self c a)
    have ha : ∀ c' ∈ a, ¬ c' = sep := fun c' hc' => h c' (List.mem_cons_of_mem c hc')
    rw [List.cons_append]
    simp only [pySplitCharL, if_neg hc, ih ha]

/-- Newline-terminated lines concatenated into one text. -/
def mkContent : List String → String
  | [] => ""
  | l :: ls => l ++ "\n" ++ mkContent ls

theorem strMk_data (s : String) : (⟨s.data⟩ : String) = s := String.ext rfl

/-- Splitting newline-joined, newline-free lines returns the lines plus
the empty remainder after the final newline. -/
theorem pySplitChar_mkContent :
    ∀ ls : List String, (∀ l ∈ ls, ∀ c ∈ l.data, ¬ c = '\n') →
      pySplitChar '\n' (mkContent ls) = ls ++ [""]
  | [], _ => by decide
  | l :: ls, h => by
    unfold mkContent pySplitChar
    have hdata : (l ++ "\n" ++ mkContent ls).data =
        l.data ++ '\n' :: (mkContent ls).data := by
      simp [String.data_append]
    rw [hdata,
      pySplitCharL_append '\n' l.data (mkContent ls).data
        (h l (List.mem_cons_self l ls)),
      List.map_cons]
    have ih := pySplitChar_mkContent ls
      (fun l' hl' => h l' (List.mem_cons_of_mem l hl'))
    unfold pySplitChar at ih
    rw [ih, strMk_data, List.cons_append]

/-- The serialized `.desktop` text is exactly the newline-joined fixed
sequence of lines, with the four optional lines present iff their field
is non-empty. -/
theorem desktopContent_eq_mkContent (n e w d i cats : String) (t : Bool) :
    desktopContent n e w d i cats t =
      mkContent (["[Desktop Entry]", "Version=1.0", "Type=Application",
        "Name=" ++ n, "Exec=" ++ e] ++
        (if !(w = "") then ["Path=" ++ w] else []) ++
        (if !(d = "") then ["Comment=" ++ d] else []) ++
        (if !(i = "") then ["Icon=" ++ i] else []) ++
        (if !(cats = "") then ["Categories=" ++ cats ++ ";"] else []) ++
        ["Terminal=" ++ pyBoolStr t, "StartupNotify=true"]) := by
  by_cases hw : w = "" <;> by_cases hd : d = "" <;> by_cases hi : i = "" <;>
      by_cases hc : cats = "" <;>
    · simp only [desktopContent, hw, hd, hi, hc]
      apply String.ext
      simp [mkContent, String.data_append]

theorem noNl_append {s t : String} (hs : ∀ ch ∈ s.data, ¬ ch = '\n')
    (ht : ∀ ch ∈ t.data, ¬ ch = '\n') : ∀ ch ∈ (s ++ t).data, ¬ ch = '\n' := by
  intro ch hch
  rw [String.data_append] at hch
  rcases List.mem_append.1 hch with h | h
  · exact hs ch h
  · exact ht ch h

theorem mem_ifSingle {c : Bool} {x l : String}
    (h : l ∈ (if c then [x] else ([] : List String))) : l = x := by
  split at h
  · simpa using h
  · simp at h

/-- **C4.** Every successfully created shortcut file consists of the
`[Desktop Entry]` header followed by `Version=1.0`, `Type=Application`,
`Name`, `Exec`, then `Path` only if a working directory was determined,
`Comment` only if a description was provided, `Icon` only if provided,
`Categories` only if provided and suffixed with `;`, then `Terminal` as
lowercase `true`/`false` and `StartupNotify=true` — no other line, no
reordering (the line decomposition is stated for field values free of
embedded newlines; the trailing `""` is the empty remainder after the
final newline). -/
theorem c4_serialization_order (g : GuiEnv)
    (nameRaw pathRaw descRaw iconRaw catsRaw : String) (terminal : Bool)
    (destDir : String) (md : Bool) (p c : String) (m : Nat)
    (h : create_shortcut g nameRaw pathRaw descRaw iconRaw catsRaw terminal
      destDir = .created md p c m)
    (hn : ∀ ch ∈ (pyStrip nameRaw).data, ¬ ch = '\n')
    (he : ∀ ch ∈ (pyStrip pathRaw).data, ¬ ch = '\n')
    (hwd : ∀ ch ∈ (workingDirFor g.fs (pyStrip pathRaw)).data, ¬ ch = '\n')
    (hd : ∀ ch ∈ (pyStrip descRaw).data, ¬ ch = '\n')
    (hi : ∀ ch ∈ (pyStrip iconRaw).data, ¬ ch = '\n')
    (hcats : ∀ ch ∈ (pyStrip catsRaw).data, ¬ ch = '\n') :
    pySplitChar '\n' c =
      (["[Desktop Entry]", "Version=1.0", "Type=Application",
        "Name=" ++ pyStrip nameRaw, "Exec=" ++ pyStrip pathRaw] ++
       (if !(workingDirFor g.fs (pyStrip pathRaw) = "") then
         ["Path=" ++ workingDirFor g.fs (pyStrip pathRaw)] else []) ++
       (if !(pyStrip descRaw = "") then ["Comment=" ++ pyStrip descRaw] else []) ++
       (if !(pyStrip iconRaw = "") then ["Icon=" ++ pyStrip iconRaw] else []) ++
       (if !(pyStrip catsRaw = "") then
         ["Categories=" ++ pyStrip catsRaw ++ ";"] else []) ++
       ["Terminal=" ++ pyBoolStr terminal, "StartupNotify=true"]) ++ [""] := by
  simp only [create_shortcut] at h
  split at h
  · exact absurd h (by simp)
  · split at h
    · exact absurd h (by simp)
    · split at h
      · exact absurd h (by simp)
      · rcases h with ⟨⟩
        rw [desktopContent_eq_mkContent]
        apply pySplitChar_mkContent
        intro l hl
        rcases List.mem_append.1 hl with hl | hl
        · rcases List.mem_append.1 hl with hl | hl
          · rcases List.mem_append.1 hl with hl | hl
            · rcases List.mem_append.1 hl with hl | hl
              · rcases List.mem_append.1 hl with hl | hl
                · rcases List.mem_cons.1 hl with rfl | hl
                  · decide
                  rcases List.mem_cons.1 hl with rfl | hl
                  · decide
                  rcases List.mem_cons.1 hl with rfl | hl
                  · decide
                  rcases List.mem_cons.1 hl with rfl | hl
                  · exact noNl_append (by decide) hn
                  rcases List.mem_cons.1 hl with rfl | hl
                  · exact noNl_append (by decide) he
                  · simp at hl
                · rw [mem_ifSingle hl]
                  exact noNl_append (by decide) hwd
              · rw [mem_ifSingle hl]
                exact noNl_append (by decide) hd
            · rw [mem_ifSingle hl]
              exact noNl_append (by decide) hi
          · rw [mem_ifSingle hl]
            exact noNl_append (noNl_append (by decide) hcats) (by decide)
        · rcases List.mem_cons.1 hl with rfl | hl
          · cases terminal <;> decide
          rcases List.mem_cons.1 hl with rfl | hl
          · decide
          · simp at hl

/-- Witness for `c4_serialization_order` on a concrete creation. -/
theorem c4_serialization_order_witness :
    pySplitChar '\n'
        "[Desktop Entry]\nVersion=1.0\nType=Application\nName=My App\nExec=/bin/sh\nComment=desc\nCategories=Utility;\nTerminal=true\nStartupNotify=true\n" =
      (["[Desktop Entry]", "Version=1.0", "Type=Application",
        "Name=" ++ pyStrip "My App", "Exec=" ++ pyStrip "/bin/sh"] ++
       (if !(workingDirFor gEnvFresh.fs (pyStrip "/bin/sh") = "") then
         ["Path=" ++ workingDirFor gEnvFresh.fs (pyStrip "/bin/sh")] else []) ++
       (if !(pyStrip "desc" = "") then ["Comment=" ++ pyStrip "desc"] else []) ++
       (if !(pyStrip "" = "") then ["Icon=" ++ pyStrip ""] else []) ++
       (if !(pyStrip "Utility" = "") then
         ["Categories=" ++ pyStrip "Utility" ++ ";"] else []) ++
       ["Terminal=" ++ pyBoolStr true, "StartupNotify=true"]) ++ [""] :=
  c4_serialization_order gEnvFresh "My App" "/bin/sh" "desc" "" "Utility" true
    "/home/u/Desktop" false "/home/u/Desktop/My App.desktop" _ 493
    (by decide) (by decide) (by decide) (by decide) (by decide) (by decide)
    (by decide)

end SC
